import Mathlib

/-!
Verification of the coordinate/motion core of an INDI equatorial-mount
driver (AP family: lx200ap.cpp, PMC family: pmc8driver.cpp).

The C++ functions are shallowly embedded: `double` arithmetic is modelled
over ℚ, the C `(int)` cast of a double (truncation toward zero) is the
function `ctrunc`, 32-bit unsigned wrap-around is explicit `% 2^32`, and
out-parameter/boolean-return pairs become `Option`/`Bool × _` values.
-/

namespace Indi

/-- The C `(int)` cast of a floating value: truncation toward zero. -/
def ctrunc (x : ℚ) : ℤ := if 0 ≤ x then ⌊x⌋ else -⌊-x⌋

theorem ctrunc_of_nonneg {x : ℚ} (h : 0 ≤ x) : ctrunc x = ⌊x⌋ := by
  simp [ctrunc, h]

theorem ctrunc_of_neg {x : ℚ} (h : x < 0) : ctrunc x = -⌊-x⌋ := by
  simp [ctrunc, not_le.mpr h]

theorem abs_ctrunc_sub_lt (x : ℚ) : |(ctrunc x : ℚ) - x| < 1 := by
  unfold ctrunc
  split_ifs with h
  · rw [abs_sub_lt_iff]
    constructor
    · linarith [Int.floor_le x]
    · linarith [Int.lt_floor_add_one x]
  · push_cast
    rw [abs_sub_lt_iff]
    constructor
    · linarith [Int.lt_floor_add_one (-x)]
    · linarith [Int.floor_le (-x)]

theorem ctrunc_nonneg {x : ℚ} (h : 0 ≤ x) : 0 ≤ ctrunc x := by
  rw [ctrunc_of_nonneg h]
  exact Int.floor_nonneg.mpr h

theorem ctrunc_le_neg_one {x : ℚ} (h : x ≤ -1) : ctrunc x ≤ -1 := by
  rw [ctrunc_of_neg (by linarith)]
  have : (1 : ℤ) ≤ ⌊-x⌋ := Int.le_floor.mpr (by push_cast; linarith)
  omega

/-! ## C1 — PMC 24-bit two's-complement wire codec

`convert_motor_counts_to_hex` (pmc8driver.cpp:803) builds the 32-bit
two's-complement value of `val` in an `unsigned`, prints it as 8 upper-case
hex digits (`%08X`) and keeps the last 6 (`strcpy(hex, h+2)`).  The hex
string is modelled as its list of nibble values. -/

/-- The 8 hex digits (as nibble values, most significant first) printed by
`sprintf(h, "%08X", n)` for an `unsigned` value `n < 2^32`. -/
def toHexDigits8 (n : ℕ) : List ℕ :=
  [n / 16 ^ 7 % 16, n / 16 ^ 6 % 16, n / 16 ^ 5 % 16, n / 16 ^ 4 % 16,
   n / 16 ^ 3 % 16, n / 16 ^ 2 % 16, n / 16 % 16, n % 16]

/-- Numeric value of a hex digit string. -/
def fromHexDigits (ds : List ℕ) : ℕ := ds.foldl (fun a d => 16 * a + d) 0

/-- pmc8driver.cpp:803 `convert_motor_counts_to_hex`: for a negative count
the code does `tmp=abs(val); tmp=~tmp; tmp++` in a 32-bit `unsigned`
(yielding `2^32 - |val|` modulo `2^32`), prints `%08X` and drops the two
leading digits. -/
def convert_motor_counts_to_hex (val : ℤ) : List ℕ :=
  let tmp : ℕ :=
    if val < 0 then (2 ^ 32 - val.natAbs % 2 ^ 32) % 2 ^ 32
    else val.toNat % 2 ^ 32
  (toHexDigits8 tmp).drop 2

/-- pmc8driver.cpp:1186 `convert_axispos_to_motor`. -/
def convert_axispos_to_motor (axispos : ℤ) : ℤ :=
  if axispos > 8388608 then 0 - (16777216 - axispos) else axispos

theorem fromHexDigits_toHexDigits8_drop2 (n : ℕ) :
    fromHexDigits ((toHexDigits8 n).drop 2) = n % 2 ^ 24 := by
  simp only [toHexDigits8, fromHexDigits, List.drop, List.foldl]
  omega

/-- C1 counterexample: the boundary count −2²³ encodes to the wire value
2²³ = 8388608, and the decoder's strict comparison (`axispos > 8388608`)
sends that wire value back to +8388608, not −8388608. -/
theorem c1_boundary_fails :
    convert_axispos_to_motor
      (fromHexDigits (convert_motor_counts_to_hex (-8388608)) : ℤ) = 8388608 ∧
    (8388608 : ℤ) ≠ -8388608 := by
  constructor
  · rfl
  · decide

/-- C1 (amended): for every motor count x with −2²³ < x < 2²³, decoding the
wire field produced by `convert_motor_counts_to_hex` with
`convert_axispos_to_motor` yields x again; and every wire value strictly
greater than 2²³ decodes to the negative count wire − 2²⁴. -/
theorem c1_roundtrip (x : ℤ) (h1 : -8388608 < x) (h2 : x < 8388608) :
    convert_axispos_to_motor
      (fromHexDigits (convert_motor_counts_to_hex x) : ℤ) = x ∧
    ∀ w : ℤ, 8388608 < w → convert_axispos_to_motor w = w - 16777216 := by
  constructor
  · unfold convert_motor_counts_to_hex
    rcases lt_or_le x 0 with hx | hx
    · simp only [hx, if_true]
      rw [fromHexDigits_toHexDigits8_drop2]
      have ha : x.natAbs < 8388608 := by omega
      have ha1 : 1 ≤ x.natAbs := by omega
      have hmod : x.natAbs % 2 ^ 32 = x.natAbs := Nat.mod_eq_of_lt (by omega)
      rw [hmod]
      have hv : (2 ^ 32 - x.natAbs) % 2 ^ 32 % 2 ^ 24 = 2 ^ 24 - x.natAbs := by
        omega
      rw [hv]
      unfold convert_axispos_to_motor
      have hgt : (8388608 : ℤ) < ((2 ^ 24 - x.natAbs : ℕ) : ℤ) := by
        push_cast
        omega
      rw [if_pos hgt]
      push_cast
      omega
    · simp only [not_lt.mpr hx, if_false]
      rw [fromHexDigits_toHexDigits8_drop2]
      have hlt : x.toNat % 2 ^ 32 = x.toNat := Nat.mod_eq_of_lt (by omega)
      rw [hlt]
      have hm : x.toNat % 2 ^ 24 = x.toNat := Nat.mod_eq_of_lt (by omega)
      rw [hm]
      unfold convert_axispos_to_motor
      rw [if_neg (by omega)]
      omega
  · intro w hw
    unfold convert_axispos_to_motor
    rw [if_pos hw]
    ring

/-- Witness for `c1_roundtrip` at x = −5. -/
theorem c1_roundtrip_witness :
    convert_axispos_to_motor
      (fromHexDigits (convert_motor_counts_to_hex (-5)) : ℤ) = -5 ∧
    ∀ w : ℤ, 8388608 < w → convert_axispos_to_motor w = w - 16777216 :=
  c1_roundtrip (-5) (by decide) (by decide)

/-! ## C4 — PMC motor-rate conversions

pmc8driver.cpp:42-51 `#define PMC8_AXIS0_SCALE 4608000.0`,
`#define ARCSEC_IN_CIRCLE 1296000.0`, `#define PMC8_MAX_PRECISE_MOTOR_RATE
2641`, `#define PMC8_MAX_MOVE_MOTOR_RATE (256*15)`. -/

def PMC8_AXIS0_SCALE : ℚ := 4608000
def PMC8_AXIS1_SCALE : ℚ := 4608000
def ARCSEC_IN_CIRCLE : ℚ := 1296000
def PMC8_MAX_PRECISE_MOTOR_RATE : ℤ := 2641
def PMC8_MAX_MOVE_MOTOR_RATE : ℤ := 256 * 15

/-- pmc8driver.cpp:827 `convert_precise_rate_to_motor`: the `(int)` cast of
`25*rate*(PMC8_AXIS0_SCALE/ARCSEC_IN_CIRCLE)`, then clamped. -/
def convert_precise_rate_to_motor (rate : ℚ) : ℤ :=
  let mrate := ctrunc (25 * rate * (PMC8_AXIS0_SCALE / ARCSEC_IN_CIRCLE))
  if mrate > PMC8_MAX_PRECISE_MOTOR_RATE then PMC8_MAX_PRECISE_MOTOR_RATE
  else if mrate < -PMC8_MAX_PRECISE_MOTOR_RATE then -PMC8_MAX_PRECISE_MOTOR_RATE
  else mrate

/-- pmc8driver.cpp:841 `convert_move_rate_to_motor`. -/
def convert_move_rate_to_motor (rate : ℚ) : ℤ :=
  let mrate := ctrunc (rate * (PMC8_AXIS0_SCALE / ARCSEC_IN_CIRCLE))
  if mrate > PMC8_MAX_MOVE_MOTOR_RATE then PMC8_MAX_MOVE_MOTOR_RATE
  else if mrate < -PMC8_MAX_MOVE_MOTOR_RATE then -PMC8_MAX_MOVE_MOTOR_RATE
  else mrate

theorem int_clamp_eq (a b : ℤ) (hb : 0 ≤ b) :
    (if a > b then b else if a < -b then -b else a) = max (-b) (min b a) := by
  rcases le_total a b with h | h <;> rcases le_total (-b) a with h' | h' <;>
    simp [max_def, min_def] <;> omega

/-- C4 counterexample: at rate = 1 arcsec/s the precise conversion yields
88 (truncation of 800/9 ≈ 88.9) where rounding would give 89, and the move
conversion yields 3 (truncation of 32/9 ≈ 3.6) where rounding would give 4;
so the claimed `round` formula disagrees with the code. -/
theorem c4_round_fails :
    convert_precise_rate_to_motor 1 = 88 ∧
    round ((25 : ℚ) * 1 * (4608000 / 1296000)) = 89 ∧
    convert_move_rate_to_motor 1 = 3 ∧
    round ((1 : ℚ) * (4608000 / 1296000)) = 4 := by
  refine ⟨?_, ?_, ?_, ?_⟩
  · norm_num [convert_precise_rate_to_motor, ctrunc, PMC8_AXIS0_SCALE,
      ARCSEC_IN_CIRCLE, PMC8_MAX_PRECISE_MOTOR_RATE]
  · norm_num [round_eq]
  · norm_num [convert_move_rate_to_motor, ctrunc, PMC8_AXIS0_SCALE,
      ARCSEC_IN_CIRCLE, PMC8_MAX_MOVE_MOTOR_RATE]
  · norm_num [round_eq]

/-- C4 (amended): for every rate, the PMC precise RA track motor rate is the
truncation toward zero (not the rounding) of 25 × rate × 4608000 / 1296000
= 800 × rate / 9, clamped to [−2641, +2641], and the move (jog) motor rate
is the truncation toward zero of rate × 4608000 / 1296000 = 32 × rate / 9,
clamped to [−3840, +3840]. -/
theorem c4_rate_conversions (rate : ℚ) :
    convert_precise_rate_to_motor rate =
      max (-2641) (min 2641 (ctrunc (800 * rate / 9))) ∧
    convert_move_rate_to_motor rate =
      max (-3840) (min 3840 (ctrunc (32 * rate / 9))) := by
  constructor
  · have harg : 25 * rate * (PMC8_AXIS0_SCALE / ARCSEC_IN_CIRCLE) =
        800 * rate / 9 := by
      unfold PMC8_AXIS0_SCALE ARCSEC_IN_CIRCLE
      ring
    unfold convert_precise_rate_to_motor
    rw [harg]
    exact int_clamp_eq _ 2641 (by decide)
  · have harg : rate * (PMC8_AXIS0_SCALE / ARCSEC_IN_CIRCLE) =
        32 * rate / 9 := by
      unfold PMC8_AXIS0_SCALE ARCSEC_IN_CIRCLE
      ring
    unfold convert_move_rate_to_motor
    rw [harg]
    exact int_clamp_eq _ 3840 (by decide)

/-! ## C6 — PMC track-mode rates

pmc8driver.cpp:958 `set_pmc8_track_mode` switches on the track-mode symbol
(enum `PMC8_TRACK_SIDEREAL` / `PMC8_TRACK_LUNAR` / `PMC8_TRACK_SOLAR`,
declared in pmc8driver.h outside this tree) and forwards a rate in arcsec/s
to `set_pmc8_custom_ra_track_rate`. -/

inductive PMC8TrackMode
  | sidereal
  | lunar
  | solar
deriving DecidableEq

/-- pmc8driver.cpp:958 `set_pmc8_track_mode`: the `ratereal` value each
switch arm assigns and forwards to `set_pmc8_custom_ra_track_rate`. -/
def set_pmc8_track_mode_rate : PMC8TrackMode → ℚ
  | .sidereal => 15.0
  | .lunar => 14.453
  | .solar => 15.041

/-- C6: the code commands 15.0 arcsec/s for SIDEREAL and 15.041 for SOLAR —
the sidereal and solar values are interchanged relative to the claim's
(and the spec glossary's) 15.04106864 and 15.000; LUNAR matches.  This
evaluates the code at the failing inputs. -/
theorem c6_track_mode_rates :
    set_pmc8_track_mode_rate .sidereal = 15 ∧
    set_pmc8_track_mode_rate .lunar = 14.453 ∧
    set_pmc8_track_mode_rate .solar = 15.041 ∧
    set_pmc8_track_mode_rate .sidereal ≠ 15.04106864 ∧
    set_pmc8_track_mode_rate .solar ≠ 15 := by
  refine ⟨by norm_num [set_pmc8_track_mode_rate], rfl, rfl, ?_, ?_⟩ <;>
    norm_num [set_pmc8_track_mode_rate]

/-! ## Pier side and hour-angle normalization -/

/-- `INDI::Telescope::TelescopePierSide` (inditelescope.h, values used by
pmc8driver.cpp). -/
inductive TelescopePierSide
  | PIER_UNKNOWN
  | PIER_WEST
  | PIER_EAST
deriving DecidableEq

/-- The inline hour-angle normalization used (identically) by
`convert_ra_to_motor` (pmc8driver.cpp:1211) and `destSideOfPier`
(pmc8driver.cpp:1642): one correction step toward (−12, +12]. -/
def normalize_ha (h : ℚ) : ℚ :=
  if h > 12 then h - 24 else if h ≤ -12 then h + 24 else h

theorem normalize_ha_shift (h : ℚ) :
    ∃ c : ℤ, normalize_ha h = h + 24 * c := by
  unfold normalize_ha
  split_ifs
  · exact ⟨-1, by push_cast; ring⟩
  · exact ⟨1, by push_cast; ring⟩
  · exact ⟨0, by push_cast; ring⟩

theorem normalize_ha_mem {h : ℚ} (h1 : -24 < h) (h2 : h < 24) :
    -12 < normalize_ha h ∧ normalize_ha h ≤ 12 := by
  unfold normalize_ha
  split_ifs with ha hb
  · constructor <;> linarith
  · constructor <;> linarith
  · constructor <;> linarith

/-! ## C8 — destination pier side

pmc8driver.cpp:1630 `destSideOfPier(ra, dec)`: `dec` is explicitly unused
(`INDI_UNUSED(dec)`); the LST comes from the external astronomy collaborator
`get_local_sidereal_time(pmc8_longitude)` and is passed here as the
parameter `lst`. -/

def destSideOfPier (lst ra dec : ℚ) : TelescopePierSide :=
  let _ := dec
  let hour_angle := normalize_ha (lst - ra)
  if hour_angle < 0 then .PIER_WEST else .PIER_EAST

/-- C8: with RA ∈ [0,24) and LST ∈ [0,24), the hour angle LST − RA is
normalized into (−12, +12]; the result is WEST exactly when it is negative
and EAST otherwise (hence never UNKNOWN), and a zero hour angle gives
EAST. -/
theorem c8_dest_side_of_pier (lst ra dec : ℚ)
    (hra0 : 0 ≤ ra) (hra1 : ra < 24) (hlst0 : 0 ≤ lst) (hlst1 : lst < 24) :
    (-12 < normalize_ha (lst - ra) ∧ normalize_ha (lst - ra) ≤ 12) ∧
    destSideOfPier lst ra dec =
      (if normalize_ha (lst - ra) < 0 then .PIER_WEST else .PIER_EAST) ∧
    destSideOfPier lst ra dec ≠ .PIER_UNKNOWN ∧
    (normalize_ha (lst - ra) = 0 → destSideOfPier lst ra dec = .PIER_EAST) := by
  have hmem := normalize_ha_mem (h := lst - ra) (by linarith) (by linarith)
  refine ⟨hmem, rfl, ?_, ?_⟩
  · simp only [destSideOfPier]
    split_ifs <;> simp
  · intro h0
    simp only [destSideOfPier, h0]
    norm_num

/-- Witness for `c8_dest_side_of_pier` at LST = 3, RA = 3 (hour angle 0). -/
theorem c8_dest_side_of_pier_witness :
    (-12 < normalize_ha ((3 : ℚ) - 3) ∧ normalize_ha ((3 : ℚ) - 3) ≤ 12) ∧
    destSideOfPier 3 3 10 =
      (if normalize_ha ((3 : ℚ) - 3) < 0 then .PIER_WEST else .PIER_EAST) ∧
    destSideOfPier 3 3 10 ≠ .PIER_UNKNOWN ∧
    (normalize_ha ((3 : ℚ) - 3) = 0 → destSideOfPier 3 3 10 = .PIER_EAST) :=
  c8_dest_side_of_pier 3 3 10 (by norm_num) (by norm_num) (by norm_num)
    (by norm_num)

/-! ## C2 — RA/Dec ↔ motor counts

pmc8driver.cpp:1198 `convert_ra_to_motor`, :1277 `convert_dec_to_motor`,
:1233 `convert_motor_to_radec`.  The assignment of a `double` expression to
the `int` out-parameter is `ctrunc`; the LST obtained from
`get_local_sidereal_time(pmc8_longitude)` is the parameter `lst`; the
`bool` return with out-parameter is an `Option`. -/

def convert_ra_to_motor (lst ra : ℚ) (sop : TelescopePierSide) : Option ℤ :=
  let hour_angle := normalize_ha (lst - ra)
  match sop with
  | .PIER_EAST => some (ctrunc ((hour_angle - 6) * PMC8_AXIS0_SCALE / 24))
  | .PIER_WEST => some (ctrunc ((hour_angle + 6) * PMC8_AXIS0_SCALE / 24))
  | .PIER_UNKNOWN => none

def convert_dec_to_motor (dec : ℚ) (sop : TelescopePierSide) : Option ℤ :=
  match sop with
  | .PIER_EAST => some (ctrunc ((dec - 90) / 360 * PMC8_AXIS1_SCALE))
  | .PIER_WEST => some (ctrunc (-(dec - 90) / 360 * PMC8_AXIS1_SCALE))
  | .PIER_UNKNOWN => none

def convert_motor_to_radec (lst : ℚ) (racounts deccounts : ℤ) : ℚ × ℚ :=
  let motor_angle_ra := 24 * (racounts : ℚ) / PMC8_AXIS0_SCALE
  let hour_angle :=
    if deccounts < 0 then motor_angle_ra + 6 else motor_angle_ra - 6
  let ra0 := lst - hour_angle
  let ra_value :=
    if ra0 ≥ 24 then ra0 - 24 else if ra0 < 0 then ra0 + 24 else ra0
  let motor_angle_dec := 360 * (deccounts : ℚ) / PMC8_AXIS1_SCALE
  let dec_value :=
    if motor_angle_dec ≥ 0 then 90 - motor_angle_dec
    else 90 + motor_angle_dec
  (ra_value, dec_value)

/-- RA agreement up to one arc-second, with RA (in hours) compared modulo
the 24-hour circle: 1 arcsec = 1/54000 hour. -/
def ra_close_arcsec (a b : ℚ) : Prop :=
  ∃ k : ℤ, |a - b - 24 * (k : ℚ)| ≤ 1 / 54000

theorem ra_final_norm_shift (x : ℚ) :
    ∃ j : ℤ, (if x ≥ 24 then x - 24 else if x < 0 then x + 24 else x)
      = x + 24 * (j : ℚ) := by
  split_ifs
  · exact ⟨-1, by push_cast; ring⟩
  · exact ⟨1, by push_cast; ring⟩
  · exact ⟨0, by push_cast; ring⟩

/-- One RA motor count is 1/192000 hour; encoding truncation loses less
than that. -/
theorem ra_err (x : ℚ) :
    |24 * (ctrunc (x * PMC8_AXIS0_SCALE / 24) : ℚ) / PMC8_AXIS0_SCALE - x|
      < 1 / 192000 := by
  unfold PMC8_AXIS0_SCALE
  have h := abs_ctrunc_sub_lt (x * 4608000 / 24)
  have key : 24 * (ctrunc (x * 4608000 / 24) : ℚ) / 4608000 - x
      = ((ctrunc (x * 4608000 / 24) : ℚ) - x * 4608000 / 24) / 192000 := by
    ring
  rw [key, abs_div, show |(192000 : ℚ)| = 192000 by norm_num,
    div_lt_div_iff₀ (by norm_num) (by norm_num)]
  nlinarith [h]

/-- C2 counterexample: at LST = 6 h, target RA = 0 h, Dec = +90°, pier
EAST, both axes encode to count 0; the decoder then takes the
`deccounts ≥ 0` (west) meridian branch and returns RA = 12 h — twelve
hours, not one arc-second, away from the target RA. -/
theorem c2_pole_east_fails :
    convert_ra_to_motor 6 0 .PIER_EAST = some 0 ∧
    convert_dec_to_motor 90 .PIER_EAST = some 0 ∧
    convert_motor_to_radec 6 0 0 = (12, 90) ∧
    ¬ ra_close_arcsec 12 0 := by
  refine ⟨?_, ?_, ?_, ?_⟩
  · norm_num [convert_ra_to_motor, normalize_ha, ctrunc, PMC8_AXIS0_SCALE]
  · norm_num [convert_dec_to_motor, ctrunc, PMC8_AXIS1_SCALE]
  · norm_num [convert_motor_to_radec, PMC8_AXIS0_SCALE, PMC8_AXIS1_SCALE]
  · rintro ⟨k, hk⟩
    rw [abs_le] at hk
    obtain ⟨h1, h2⟩ := hk
    have hk1 : (0 : ℚ) < (k : ℚ) := by linarith
    have hk2 : (0 : ℤ) < k := by exact_mod_cast hk1
    have hk3 : (1 : ℤ) ≤ k := hk2
    have hk4 : (1 : ℚ) ≤ (k : ℚ) := by exact_mod_cast hk3
    linarith

/-- C2 (amended): for pier side EAST or WEST, RA ∈ [0,24), dec ∈ [−90,+90],
and — on the EAST side — dec at least one motor count (360/4608000°) below
the pole (so that the Dec count is strictly negative and the decoder picks
the matching meridian branch), converting (ra, dec) to motor counts and
back returns Dec within 1 arcsec and RA within 1 arcsec measured on the
24-hour circle, at any LST. -/
theorem c2_roundtrip (lst ra dec : ℚ) (sop : TelescopePierSide)
    (hsop : sop ≠ .PIER_UNKNOWN)
    (_hra0 : 0 ≤ ra) (_hra1 : ra < 24) (_hdec0 : -90 ≤ dec)
    (hdec1 : dec ≤ 90)
    (hE : sop = .PIER_EAST → dec ≤ 90 - 360 / 4608000) :
    ∃ rc dc : ℤ,
      convert_ra_to_motor lst ra sop = some rc ∧
      convert_dec_to_motor dec sop = some dc ∧
      ra_close_arcsec (convert_motor_to_radec lst rc dc).1 ra ∧
      |(convert_motor_to_radec lst rc dc).2 - dec| ≤ 1 / 3600 := by
  cases sop with
  | PIER_UNKNOWN => exact absurd rfl hsop
  | PIER_EAST =>
    obtain ⟨c, hc⟩ := normalize_ha_shift (lst - ra)
    have hu : (dec - 90) / 360 * PMC8_AXIS1_SCALE = (dec - 90) * 12800 := by
      unfold PMC8_AXIS1_SCALE
      ring
    have hdcle : ctrunc ((dec - 90) / 360 * PMC8_AXIS1_SCALE) ≤ -1 := by
      rw [hu]
      apply ctrunc_le_neg_one
      have h9 := hE rfl
      linarith
    refine ⟨ctrunc ((normalize_ha (lst - ra) - 6) * PMC8_AXIS0_SCALE / 24),
      ctrunc ((dec - 90) / 360 * PMC8_AXIS1_SCALE), rfl, rfl, ?_, ?_⟩
    · set rc := ctrunc ((normalize_ha (lst - ra) - 6) * PMC8_AXIS0_SCALE / 24)
        with hrc
      set dc := ctrunc ((dec - 90) / 360 * PMC8_AXIS1_SCALE) with hdc
      have hdcneg : dc < 0 := by omega
      have hfst : (convert_motor_to_radec lst rc dc).1 =
          (if lst - (24 * (rc : ℚ) / PMC8_AXIS0_SCALE + 6) ≥ 24 then
             lst - (24 * (rc : ℚ) / PMC8_AXIS0_SCALE + 6) - 24
           else if lst - (24 * (rc : ℚ) / PMC8_AXIS0_SCALE + 6) < 0 then
             lst - (24 * (rc : ℚ) / PMC8_AXIS0_SCALE + 6) + 24
           else lst - (24 * (rc : ℚ) / PMC8_AXIS0_SCALE + 6)) := by
        simp only [convert_motor_to_radec]
        rw [if_pos hdcneg]
      obtain ⟨j, hj⟩ :=
        ra_final_norm_shift (lst - (24 * (rc : ℚ) / PMC8_AXIS0_SCALE + 6))
      have he : |24 * (rc : ℚ) / PMC8_AXIS0_SCALE -
          (normalize_ha (lst - ra) - 6)| < 1 / 192000 := by
        rw [hrc]
        exact ra_err (normalize_ha (lst - ra) - 6)
      refine ⟨j - c, ?_⟩
      rw [hfst, hj]
      have hgoal : lst - (24 * (rc : ℚ) / PMC8_AXIS0_SCALE + 6) + 24 * (j : ℚ)
          - ra - 24 * ((j - c : ℤ) : ℚ)
          = -(24 * (rc : ℚ) / PMC8_AXIS0_SCALE -
              (normalize_ha (lst - ra) - 6)) := by
        rw [hc]
        push_cast
        ring
      rw [hgoal, abs_neg]
      linarith [he]
    · set dc := ctrunc ((dec - 90) / 360 * PMC8_AXIS1_SCALE) with hdc
      have hsnd : (convert_motor_to_radec lst
          (ctrunc ((normalize_ha (lst - ra) - 6) * PMC8_AXIS0_SCALE / 24))
          dc).2 = 90 + 360 * (dc : ℚ) / PMC8_AXIS1_SCALE := by
        have hcond : ¬ (360 * (dc : ℚ) / PMC8_AXIS1_SCALE ≥ 0) := by
          unfold PMC8_AXIS1_SCALE
          have hq : (dc : ℚ) ≤ -1 := by exact_mod_cast hdcle
          rw [not_le]
          linarith
        simp only [convert_motor_to_radec]
        rw [if_neg hcond]
      have h3 : |(dc : ℚ) - (dec - 90) * 12800| < 1 := by
        rw [hdc, hu]
        exact abs_ctrunc_sub_lt _
      have h4 : 90 + 360 * (dc : ℚ) / PMC8_AXIS1_SCALE - dec
          = ((dc : ℚ) - (dec - 90) * 12800) / 12800 := by
        unfold PMC8_AXIS1_SCALE
        ring
      rw [hsnd, h4, abs_div, show |(12800 : ℚ)| = 12800 by norm_num,
        div_le_iff₀ (by norm_num)]
      linarith [h3]
  | PIER_WEST =>
    obtain ⟨c, hc⟩ := normalize_ha_shift (lst - ra)
    have hu : -(dec - 90) / 360 * PMC8_AXIS1_SCALE = (90 - dec) * 12800 := by
      unfold PMC8_AXIS1_SCALE
      ring
    have hdcnn : 0 ≤ ctrunc (-(dec - 90) / 360 * PMC8_AXIS1_SCALE) := by
      rw [hu]
      apply ctrunc_nonneg
      linarith
    refine ⟨ctrunc ((normalize_ha (lst - ra) + 6) * PMC8_AXIS0_SCALE / 24),
      ctrunc (-(dec - 90) / 360 * PMC8_AXIS1_SCALE), rfl, rfl, ?_, ?_⟩
    · set rc := ctrunc ((normalize_ha (lst - ra) + 6) * PMC8_AXIS0_SCALE / 24)
        with hrc
      set dc := ctrunc (-(dec - 90) / 360 * PMC8_AXIS1_SCALE) with hdc
      have hdcnneg : ¬ (dc < 0) := not_lt.mpr hdcnn
      have hfst : (convert_motor_to_radec lst rc dc).1 =
          (if lst - (24 * (rc : ℚ) / PMC8_AXIS0_SCALE - 6) ≥ 24 then
             lst - (24 * (rc : ℚ) / PMC8_AXIS0_SCALE - 6) - 24
           else if lst - (24 * (rc : ℚ) / PMC8_AXIS0_SCALE - 6) < 0 then
             lst - (24 * (rc : ℚ) / PMC8_AXIS0_SCALE - 6) + 24
           else lst - (24 * (rc : ℚ) / PMC8_AXIS0_SCALE - 6)) := by
        simp only [convert_motor_to_radec]
        rw [if_neg hdcnneg]
      obtain ⟨j, hj⟩ :=
        ra_final_norm_shift (lst - (24 * (rc : ℚ) / PMC8_AXIS0_SCALE - 6))
      have he : |24 * (rc : ℚ) / PMC8_AXIS0_SCALE -
          (normalize_ha (lst - ra) + 6)| < 1 / 192000 := by
        rw [hrc]
        exact ra_err (normalize_ha (lst - ra) + 6)
      refine ⟨j - c, ?_⟩
      rw [hfst, hj]
      have hgoal : lst - (24 * (rc : ℚ) / PMC8_AXIS0_SCALE - 6) + 24 * (j : ℚ)
          - ra - 24 * ((j - c : ℤ) : ℚ)
          = -(24 * (rc : ℚ) / PMC8_AXIS0_SCALE -
              (normalize_ha (lst - ra) + 6)) := by
        rw [hc]
        push_cast
        ring
      rw [hgoal, abs_neg]
      linarith [he]
    · set dc := ctrunc (-(dec - 90) / 360 * PMC8_AXIS1_SCALE) with hdc
      have hsnd : (convert_motor_to_radec lst
          (ctrunc ((normalize_ha (lst - ra) + 6) * PMC8_AXIS0_SCALE / 24))
          dc).2 = 90 - 360 * (dc : ℚ) / PMC8_AXIS1_SCALE := by
        have hcond : 360 * (dc : ℚ) / PMC8_AXIS1_SCALE ≥ 0 := by
          unfold PMC8_AXIS1_SCALE
          have hq : (0 : ℚ) ≤ (dc : ℚ) := by exact_mod_cast hdcnn
          positivity
        simp only [convert_motor_to_radec]
        rw [if_pos hcond]
      have h3 : |(dc : ℚ) - (90 - dec) * 12800| < 1 := by
        rw [hdc, hu]
        exact abs_ctrunc_sub_lt _
      have h4 : 90 - 360 * (dc : ℚ) / PMC8_AXIS1_SCALE - dec
          = -(((dc : ℚ) - (90 - dec) * 12800) / 12800) := by
        unfold PMC8_AXIS1_SCALE
        ring
      rw [hsnd, h4, abs_neg, abs_div, show |(12800 : ℚ)| = 12800 by norm_num,
        div_le_iff₀ (by norm_num)]
      linarith [h3]

/-- Witness for `c2_roundtrip` at LST = 0, RA = 3, Dec = 10, pier WEST. -/
theorem c2_roundtrip_witness :
    ∃ rc dc : ℤ,
      convert_ra_to_motor 0 3 .PIER_WEST = some rc ∧
      convert_dec_to_motor 10 .PIER_WEST = some dc ∧
      ra_close_arcsec (convert_motor_to_radec 0 rc dc).1 3 ∧
      |(convert_motor_to_radec 0 rc dc).2 - 10| ≤ 1 / 3600 :=
  c2_roundtrip 0 3 10 .PIER_WEST (by decide) (by norm_num) (by norm_num)
    (by norm_num) (by norm_num) (by intro h; exact absurd h (by decide))

/-! ## C5 — AP slew-settling state machine

lx200ap.cpp:418 `LX200AstroPhysics::ReadScopeStatus` (hardware path, after
a successful RA/Dec read).  The mutable driver fields touched by the
function form `APScopeState`; the freshly read coordinates are the
function's inputs.  In the PARKING branch the external park command,
tracking-off and `SetParked(true)` are modelled as the transition to
`SCOPE_PARKED`. -/

/-- `INDI::Telescope::TelescopeStatus` values used by lx200ap.cpp. -/
inductive TelescopeStatus
  | SCOPE_IDLE
  | SCOPE_SLEWING
  | SCOPE_TRACKING
  | SCOPE_PARKING
  | SCOPE_PARKED
deriving DecidableEq

structure APScopeState where
  trackState : TelescopeStatus
  lastRA : ℚ
  lastDE : ℚ
  lastAZ : ℚ
  lastAL : ℚ
deriving DecidableEq

/-- lx200ap.cpp:418 `ReadScopeStatus`, one successful tick with the freshly
read equatorial position (`currentRA`, `currentDEC`) and — in the PARKING
branch — horizontal position (`currentAz`, `currentAlt`). -/
def LX200AP_ReadScopeStatus (s : APScopeState)
    (currentRA currentDEC currentAz currentAlt : ℚ) : APScopeState :=
  if s.trackState = .SCOPE_SLEWING then
    let dx := s.lastRA - currentRA
    let dy := s.lastDE - currentDEC
    let ts := if dx = 0 ∧ dy = 0 then TelescopeStatus.SCOPE_TRACKING
              else s.trackState
    { s with trackState := ts, lastRA := currentRA, lastDE := currentDEC }
  else if s.trackState = .SCOPE_PARKING then
    let dx := s.lastAZ - currentAz
    let dy := s.lastAL - currentAlt
    let ts := if dx = 0 ∧ dy = 0 then TelescopeStatus.SCOPE_PARKED
              else s.trackState
    { s with trackState := ts, lastAZ := currentAz, lastAL := currentAlt }
  else s

/-- C5: while SLEWING, a `ReadScopeStatus` tick moves the state to TRACKING
exactly when the freshly read position equals the previous tick's snapshot
(both deltas zero, i.e. static across 2 polls); in every case the snapshot
is updated to the current position, and when the position moved the state
stays SLEWING. -/
theorem c5_slew_settles (s : APScopeState) (ra dec az alt : ℚ)
    (hs : s.trackState = .SCOPE_SLEWING) :
    ((LX200AP_ReadScopeStatus s ra dec az alt).trackState = .SCOPE_TRACKING
      ↔ (s.lastRA = ra ∧ s.lastDE = dec)) ∧
    (LX200AP_ReadScopeStatus s ra dec az alt).lastRA = ra ∧
    (LX200AP_ReadScopeStatus s ra dec az alt).lastDE = dec ∧
    (¬ (s.lastRA = ra ∧ s.lastDE = dec) →
      (LX200AP_ReadScopeStatus s ra dec az alt).trackState
        = .SCOPE_SLEWING) := by
  unfold LX200AP_ReadScopeStatus
  rw [if_pos hs]
  refine ⟨?_, rfl, rfl, ?_⟩
  · show (if s.lastRA - ra = 0 ∧ s.lastDE - dec = 0 then
        TelescopeStatus.SCOPE_TRACKING else s.trackState) =
        .SCOPE_TRACKING ↔ (s.lastRA = ra ∧ s.lastDE = dec)
    by_cases hst : s.lastRA - ra = 0 ∧ s.lastDE - dec = 0
    · rw [if_pos hst]
      constructor
      · intro _
        exact ⟨by linarith [hst.1], by linarith [hst.2]⟩
      · intro _
        rfl
    · rw [if_neg hst, hs]
      constructor
      · intro h
        exact absurd h (by decide)
      · intro h
        exact absurd ⟨by linarith [h.1], by linarith [h.2]⟩ hst
  · intro hco
    show (if s.lastRA - ra = 0 ∧ s.lastDE - dec = 0 then
        TelescopeStatus.SCOPE_TRACKING else s.trackState) = .SCOPE_SLEWING
    rw [if_neg (fun h => hco ⟨by linarith [h.1], by linarith [h.2]⟩)]
    exact hs

/-- Witness for `c5_slew_settles`: a slewing mount read twice at the same
position advances to TRACKING. -/
theorem c5_slew_settles_witness :
    ((LX200AP_ReadScopeStatus ⟨.SCOPE_SLEWING, 5, 20, 0, 0⟩ 5 20 0 0).trackState
       = .SCOPE_TRACKING ↔ ((5 : ℚ) = 5 ∧ (20 : ℚ) = 20)) ∧
    (LX200AP_ReadScopeStatus ⟨.SCOPE_SLEWING, 5, 20, 0, 0⟩ 5 20 0 0).lastRA = 5 ∧
    (LX200AP_ReadScopeStatus ⟨.SCOPE_SLEWING, 5, 20, 0, 0⟩ 5 20 0 0).lastDE = 20 ∧
    (¬ ((5 : ℚ) = 5 ∧ (20 : ℚ) = 20) →
      (LX200AP_ReadScopeStatus ⟨.SCOPE_SLEWING, 5, 20, 0, 0⟩ 5 20 0 0).trackState
        = .SCOPE_SLEWING) :=
  c5_slew_settles ⟨.SCOPE_SLEWING, 5, 20, 0, 0⟩ 5 20 0 0 rfl

/-! ## C7 — AP zero-initialized-mount detection

lx200ap.cpp:495 `LX200AstroPhysics::IsMountInitialized`, after a successful
RA/Dec read; `epscheck = 1e-5`. -/

/-- lx200ap.cpp:495: the `*initialized` value computed from a successfully
read (ra, dec). -/
def LX200AP_IsMountInitialized (ra dec : ℚ) : Bool :=
  let epscheck : ℚ := 1 / 100000
  let raZE := decide (|ra| < epscheck)
  let deZE := decide (|dec| < epscheck)
  let de90 := decide (|dec - 90| < epscheck)
  if (raZE && deZE) || (raZE && de90) then false else true

/-- C7: the mount is reported uninitialized exactly when |RA| < 1e-5 and
|Dec| < 1e-5 or |Dec − 90| < 1e-5; every other reading reports that
initialization is not needed. -/
theorem c7_is_mount_initialized (ra dec : ℚ) :
    LX200AP_IsMountInitialized ra dec = false ↔
      (|ra| < 1 / 100000 ∧
        (|dec| < 1 / 100000 ∨ |dec - 90| < 1 / 100000)) := by
  simp only [LX200AP_IsMountInitialized, Bool.or_eq_true, Bool.and_eq_true,
    decide_eq_true_eq]
  split_ifs with h
  · simp only [true_iff]
    tauto
  · simp only [false_iff]
    tauto

/-! ## C3 — AP custom track rates

lx200ap.cpp:1061 `LX200AstroPhysics::SetTrackRate` computes the sidereal
multipliers; the wire-side clamping lives in the AP command layer
(lx200apdriver.cpp), which is not under src/. -/

/-- Modelled from the spec: `TRACKRATE_SIDEREAL`, defined in a framework
header outside this tree; the spec gives the sidereal rate as 15.04106864
arcsec/s. -/
def TRACKRATE_SIDEREAL : ℚ := 15.04106864

/-- Modelled from the spec: `setAPRATrackRate` (lx200apdriver.cpp, not
under src/) clamps the RA multiplier to [−998.9999, +998.9999] before
formatting the `:RR` frame. -/
def setAPRATrackRate (rate : ℚ) : ℚ :=
  if rate > 998.9999 then 998.9999
  else if rate < -998.9999 then -998.9999
  else rate

/-- Modelled from the spec: `setAPDETrackRate` (lx200apdriver.cpp, not
under src/) clamps the Dec multiplier to [−998.9999, +998.9999] before
formatting the `:RD` frame. -/
def setAPDETrackRate (rate : ℚ) : ℚ :=
  if rate > 998.9999 then 998.9999
  else if rate < -998.9999 then -998.9999
  else rate

/-- lx200ap.cpp:1061 `SetTrackRate`: the pair of wire multipliers sent
(RA via `setAPRATrackRate`, Dec via `setAPDETrackRate`). -/
def LX200AP_SetTrackRate (raRate deRate : ℚ) : ℚ × ℚ :=
  let APRARate := (raRate - TRACKRATE_SIDEREAL) / TRACKRATE_SIDEREAL
  let APDERate := deRate / TRACKRATE_SIDEREAL
  (setAPRATrackRate APRARate, setAPDETrackRate APDERate)

theorem rat_clamp_eq (x : ℚ) :
    (if x > 998.9999 then (998.9999 : ℚ)
     else if x < -998.9999 then -998.9999 else x)
      = max (-998.9999) (min 998.9999 x) := by
  rcases le_total x 998.9999 with h | h <;>
    rcases le_total (-998.9999 : ℚ) x with h' | h' <;>
      simp [max_def, min_def] <;> split_ifs <;> linarith

/-- C3: the RA wire multiplier is (raRate − 15.04106864)/15.04106864 and
the Dec wire multiplier is deRate/15.04106864, each clamped to
[−998.9999, +998.9999]; SetTrackRate(15026.03, 0) passes its RA multiplier
through unclamped, while SetTrackRate(20000, 0) has its RA multiplier
clamped down to 998.9999. -/
theorem c3_set_track_rate :
    (∀ raRate deRate : ℚ,
       LX200AP_SetTrackRate raRate deRate =
         (max (-998.9999) (min 998.9999
             ((raRate - 15.04106864) / 15.04106864)),
          max (-998.9999) (min 998.9999 (deRate / 15.04106864)))) ∧
    (LX200AP_SetTrackRate 15026.03 0).1 =
      (15026.03 - 15.04106864) / 15.04106864 ∧
    (LX200AP_SetTrackRate 20000 0).1 = 998.9999 ∧
    ((20000 : ℚ) - 15.04106864) / 15.04106864 > 998.9999 := by
  have hmap : ∀ raRate deRate : ℚ,
      LX200AP_SetTrackRate raRate deRate =
        (max (-998.9999) (min 998.9999
            ((raRate - 15.04106864) / 15.04106864)),
         max (-998.9999) (min 998.9999 (deRate / 15.04106864))) := by
    intro raRate deRate
    simp only [LX200AP_SetTrackRate, setAPRATrackRate, setAPDETrackRate,
      TRACKRATE_SIDEREAL]
    rw [rat_clamp_eq, rat_clamp_eq]
  have hbig : (20000 - 15.04106864 : ℚ) / 15.04106864 > 998.9999 := by
    rw [gt_iff_lt, lt_div_iff₀ (by norm_num)]
    norm_num
  refine ⟨hmap, ?_, ?_, hbig⟩
  · rw [hmap]
    have hin : ((15026.03 - 15.04106864 : ℚ) / 15.04106864) ≤ 998.9999 := by
      rw [div_le_iff₀ (by norm_num)]
      norm_num
    have hin2 : (-998.9999 : ℚ) ≤ (15026.03 - 15.04106864) / 15.04106864 := by
      rw [le_div_iff₀ (by norm_num)]
      norm_num
    simp only [min_eq_right hin, max_eq_right hin2]
  · rw [hmap]
    have : min (998.9999 : ℚ)
        ((20000 - 15.04106864) / 15.04106864) = 998.9999 :=
      min_eq_left (le_of_lt hbig)
    rw [this]
    exact max_eq_right (by norm_num)

/-! ## C9 — jog start with an out-of-range speed index

pmc8driver.cpp:589 `convert_movespeedindex_to_rate` and :615
`start_pmc8_motion`.  The serial exchanges the call performs are modelled
as a trace of issued commands; the slew-state read at the top of
`start_pmc8_motion` is represented by its outcome (`slewReadOk`,
`isslew`). -/

/-- `PMC8_AXIS` (pmc8driver.h, spec §4.3): axis 0 = RA, 1 = Dec. -/
def PMC8_RA_AXIS : ℕ := 0
def PMC8_DEC_AXIS : ℕ := 1

/-- `PMC8_DIRECTION` values used by `start_pmc8_motion`. -/
inductive PMC8_DIRECTION
  | PMC8_N
  | PMC8_S
  | PMC8_W
  | PMC8_E
deriving DecidableEq

/-- Wire activity of the modelled PMC8 calls, one constructor per issued
frame / nested call. -/
inductive PMC8Cmd
  | raMoveRate (rate : ℤ)
  | decMoveRate (rate : ℤ)
  | trackRate (rateval : ℤ)
  | directionAxis (axis : ℕ) (dir : ℤ)
deriving DecidableEq

/-- pmc8driver.cpp:589 `convert_movespeedindex_to_rate`: the `switch` over
the jog-speed index, `default` giving 0. -/
def convert_movespeedindex_to_rate (mode : ℤ) : ℤ :=
  if mode = 0 then 4 * 15
  else if mode = 1 then 16 * 15
  else if mode = 2 then 64 * 15
  else if mode = 3 then 256 * 15
  else 0

/-- pmc8driver.cpp:615 `start_pmc8_motion`: returns the function's `bool`
result and the trace of move-rate commands it issues
(`set_pmc8_custom_ra_move_rate` / `set_pmc8_custom_dec_move_rate` calls,
made only for a non-zero rate and with their results ignored). -/
def start_pmc8_motion (slewReadOk isslew : Bool) (dir : PMC8_DIRECTION)
    (mode : ℤ) : Bool × List PMC8Cmd :=
  if slewReadOk = false then (false, [])
  else if isslew then (false, [])
  else
    let reqrate0 := convert_movespeedindex_to_rate mode
    let reqrate :=
      if reqrate0 > PMC8_MAX_MOVE_MOTOR_RATE then PMC8_MAX_MOVE_MOTOR_RATE
      else if reqrate0 < -PMC8_MAX_MOVE_MOTOR_RATE then
        -PMC8_MAX_MOVE_MOTOR_RATE
      else reqrate0
    let rarate : ℤ := match dir with
      | .PMC8_W => reqrate
      | .PMC8_E => -reqrate
      | _ => 0
    let decrate : ℤ := match dir with
      | .PMC8_N => reqrate
      | .PMC8_S => -reqrate
      | _ => 0
    (true,
      (if rarate ≠ 0 then [PMC8Cmd.raMoveRate rarate] else []) ++
      (if decrate ≠ 0 then [PMC8Cmd.decMoveRate decrate] else []))

/-- C9: a jog-speed index outside 0..3 translates to motor rate 0, and
`start_pmc8_motion` on a non-slewing mount then issues no move-rate
command on either axis yet still returns success. -/
theorem c9_bad_index_silent_success (dir : PMC8_DIRECTION) (mode : ℤ)
    (h : mode < 0 ∨ 3 < mode) :
    convert_movespeedindex_to_rate mode = 0 ∧
    start_pmc8_motion true false dir mode = (true, []) := by
  have hr : convert_movespeedindex_to_rate mode = 0 := by
    unfold convert_movespeedindex_to_rate
    have h0 : mode ≠ 0 := by omega
    have h1 : mode ≠ 1 := by omega
    have h2 : mode ≠ 2 := by omega
    have h3 : mode ≠ 3 := by omega
    simp [h0, h1, h2, h3]
  refine ⟨hr, ?_⟩
  unfold start_pmc8_motion
  rw [hr]
  cases dir <;> simp [PMC8_MAX_MOVE_MOTOR_RATE]

/-- Witness for `c9_bad_index_silent_success` at index 7, direction N. -/
theorem c9_bad_index_silent_success_witness :
    convert_movespeedindex_to_rate 7 = 0 ∧
    start_pmc8_motion true false .PMC8_N 7 = (true, []) :=
  c9_bad_index_silent_success .PMC8_N 7 (by omega)

/-! ## C10 — custom RA track rate always ends by setting direction 1

pmc8driver.cpp:496 `set_pmc8_direction_axis` and :978
`set_pmc8_custom_ra_track_rate` (hardware paths).  Success of each serial
exchange is an oracle parameter (`true` = frame written and expected-length
response read). -/

/-- pmc8driver.cpp:496 `set_pmc8_direction_axis`: issues the `ESSd` frame;
`ok` is the outcome of its write/read/length-check. -/
def set_pmc8_direction_axis (axis : ℕ) (dir : ℤ) (ok : Bool) :
    Bool × List PMC8Cmd :=
  (ok, [PMC8Cmd.directionAxis axis dir])

/-- pmc8driver.cpp:978 `set_pmc8_custom_ra_track_rate`: converts the rate,
issues the `ESTr` frame (outcome `trOk`), and on success finishes with
`set_pmc8_direction_axis(fd, PMC8_RA_AXIS, 1)` (outcome `dirOk`), whose
result it returns. -/
def set_pmc8_custom_ra_track_rate (rate : ℚ) (trOk dirOk : Bool) :
    Bool × List PMC8Cmd :=
  let rateval := convert_precise_rate_to_motor rate
  if trOk = false then (false, [PMC8Cmd.trackRate rateval])
  else
    let d := set_pmc8_direction_axis PMC8_RA_AXIS 1 dirOk
    (d.1, PMC8Cmd.trackRate rateval :: d.2)

/-- C10: whenever `set_pmc8_custom_ra_track_rate` succeeds — for any
requested rate, zero and negative included — the last command it issued is
`ESSd` setting the RA axis direction to 1. -/
theorem c10_ra_direction_always_one (rate : ℚ) (trOk dirOk : Bool)
    (h : (set_pmc8_custom_ra_track_rate rate trOk dirOk).1 = true) :
    (set_pmc8_custom_ra_track_rate rate trOk dirOk).2.getLast?
      = some (PMC8Cmd.directionAxis PMC8_RA_AXIS 1) := by
  cases trOk with
  | false => simp [set_pmc8_custom_ra_track_rate] at h
  | true => simp [set_pmc8_custom_ra_track_rate, set_pmc8_direction_axis]

/-- Witness for `c10_ra_direction_always_one` at rate −5 arcsec/s with both
exchanges succeeding. -/
theorem c10_ra_direction_always_one_witness :
    (set_pmc8_custom_ra_track_rate (-5) true true).2.getLast?
      = some (PMC8Cmd.directionAxis PMC8_RA_AXIS 1) :=
  c10_ra_direction_always_one (-5) true true rfl

end Indi
